import Mathlib

/-!
# Verification of the dependency-graph resolution and view-state controller

Shallow embedding of `src/depgraph-navigator/src/browser/graph/model-source.ts`
(`DepGraphModelSource`).  The controller's observable behaviour is modelled as
a function from an environment (the external collaborators: Graph Generator,
Graph Filter, Layout Engine, optional load indicator) and a state (the shared
Model/Index pair plus the session filter text) to a result, a final state and
a trace of externally visible events (generator invocations, view-actions,
model commits, load-indicator toggles, log output).

The execution model is the single-threaded cooperative one of the source
(§5 of the spec): each operation is a sequential function; "concurrency" of
sibling fetches is the fact that all their pending results are settled
together at the `Promise.all` suspension point.
-/

/-- Geometric bounds, stored verbatim (no arithmetic is performed on them). -/
structure Bounds where
  x : Int
  y : Int
  width : Int
  height : Int
  deriving DecidableEq, Repr

/-- A 2-d alignment vector, stored verbatim. -/
structure Point where
  x : Int
  y : Int
  deriving DecidableEq, Repr

/-- `DependencyGraphNodeSchema` from `graph-model.ts`: one package/module node.
`hidden`, `resolved` default to `false` and `error` to `none`, matching the
optional (`?:`) fields of the TypeScript schema, where `undefined` is falsy. -/
structure DependencyGraphNodeSchema where
  id : String
  name : String := ""
  version : Option String := none
  hidden : Bool := false
  resolved : Bool := false
  error : Option String := none
  bounds : Option Bounds := none
  alignment : Option Point := none
  deriving DecidableEq, Repr

/-- An edge between two node ids; no resolution state of its own. -/
structure DependencyGraphEdgeSchema where
  id : String
  sourceId : String
  targetId : String
  hidden : Bool := false
  bounds : Option Bounds := none
  alignment : Option Point := none
  deriving DecidableEq, Repr

/-- A graph element: the `type` discriminator of the TypeScript schema is the
constructor. -/
inductive SModelElement where
  | node (n : DependencyGraphNodeSchema)
  | edge (e : DependencyGraphEdgeSchema)
  deriving DecidableEq, Repr

namespace SModelElement

/-- The element's globally unique `id`. -/
def elemId : SModelElement → String
  | node n => n.id
  | edge e => e.id

/-- The element's `hidden` flag. -/
def elemHidden : SModelElement → Bool
  | node n => n.hidden
  | edge e => e.hidden

/-- `isNode` from `graph-model.ts`: the `type === 'node'` test. -/
def isNode : SModelElement → Bool
  | node _ => true
  | edge _ => false

/-- Overwrite the `hidden` flag (what the Graph Filter's refresh does to each
element). -/
def setHidden (b : Bool) : SModelElement → SModelElement
  | node n => node { n with hidden := b }
  | edge e => edge { e with hidden := b }

/-- Set a node's `error` field (`node.error = error.toString()`); edges carry
no error field, so they are returned unchanged. -/
def setError (msg : String) : SModelElement → SModelElement
  | node n => node { n with error := some msg }
  | edge e => edge e

/-- Set a node's `resolved` flag (done by the Graph Generator when a fetch
settles successfully). -/
def setResolved : SModelElement → SModelElement
  | node n => node { n with resolved := true }
  | edge e => edge e

/-- `applyBounds` of the superclass: store the computed bounds. -/
def setBounds (b : Bounds) : SModelElement → SModelElement
  | node n => node { n with bounds := some b }
  | edge e => edge { e with bounds := some b }

/-- `applyAlignment` of the superclass: store the computed alignment. -/
def setAlignment (p : Point) : SModelElement → SModelElement
  | node n => node { n with alignment := some p }
  | edge e => edge { e with alignment := some p }

end SModelElement

/-- The shared mutable state: `Model.children` (the rooted tree's ordered
element list), the id→element `Index`, and the session filter text held by the
Graph Filter.  In the source, `children` and the index hold references to the
same element objects; the embedding keeps two lists and applies every
per-element mutation to both, which coincides with reference semantics
whenever the §3 model/index correspondence invariant holds. -/
structure St where
  children : List SModelElement
  index : List SModelElement
  filterText : String := ""
  deriving DecidableEq, Repr

/-- `index.getById(id)`: point lookup in the Index. -/
def getById (st : St) (id : String) : Option SModelElement :=
  st.index.find? (fun e => e.elemId == id)

/-- Mutate, by id, the (shared) element in both `children` and the index. -/
def mapElem (id : String) (f : SModelElement → SModelElement) (st : St) : St :=
  { st with
    children := st.children.map (fun e => if e.elemId == id then f e else e)
    index := st.index.map (fun e => if e.elemId == id then f e else e) }

/-- `node.error = error.toString()` on the indexed node. -/
def setErrorSt (id : String) (msg : String) (st : St) : St :=
  mapElem id (SModelElement.setError msg) st

/-- Observable events: generator invocations, load-indicator toggles, Graph
Filter calls, model commits, dispatched view-actions and error logging. -/
inductive Event where
  | fetch (id : String)
  | loadIndicator (status : Bool)
  | setFilterEv (text : String)
  | refreshEv
  | commit
  | selectAction (ids : List String)
  | selectAllAction (select : Bool)
  | fitAction (ids : List String) (padding : Nat) (maxZoom : Nat) (animate : Bool)
  | logError (msg : String)
  deriving DecidableEq, Repr

/-- Outcome of one `graphGenerator.resolveNode(node)` invocation, chosen by
the environment: the call can throw synchronously, or return a promise that
later rejects, or return a promise that fulfils with the newly discovered
child nodes. -/
inductive FetchOutcome where
  | syncThrow (msg : String)
  | rejected (msg : String)
  | fulfilled (newNodes : List DependencyGraphNodeSchema)
  deriving DecidableEq, Repr

/-- The external collaborators (§6 of the spec): the Graph Generator's fetch
behaviour, the Graph Filter's hiding predicate (hidden := predicate of the
current filter text and the element), whether a load indicator is configured,
and the Layout Engine's effect and outcome. -/
structure Env where
  gen : DependencyGraphNodeSchema → FetchOutcome
  filterHidden : String → SModelElement → Bool
  hasLoadIndicator : Bool := true
  layoutEffect : St → St := id
  layoutOutcome : Except String Unit := Except.ok ()

/-- The controller monad: an environment- and state-passing computation that
can end in a thrown/rejected error and records a trace of events. -/
def M (α : Type) : Type :=
  Env → St → Except String α × St × List Event

/-- Monadic return: no state change, no events. -/
def M.pureM (a : α) : M α := fun _ st => (Except.ok a, st, [])

/-- Monadic bind: sequence, concatenating traces; an error short-circuits
(the rejection propagates to the operation's caller). -/
def M.bindM (x : M α) (f : α → M β) : M β := fun env st =>
  match x env st with
  | (Except.ok a, st1, tr1) =>
    match f a env st1 with
    | (r, st2, tr2) => (r, st2, tr1 ++ tr2)
  | (Except.error msg, st1, tr1) => (Except.error msg, st1, tr1)

instance : Monad M where
  pure := M.pureM
  bind := M.bindM

/-- Read the current state. -/
def getSt : M St := fun _ st => (Except.ok st, st, [])

/-- Read the environment. -/
def getEnv : M Env := fun env st => (Except.ok env, st, [])

/-- Apply a state mutation. -/
def modifySt (f : St → St) : M Unit := fun _ st => (Except.ok (), f st, [])

/-- Record an observable event. -/
def emit (ev : Event) : M Unit := fun _ st => (Except.ok (), st, [ev])

/-- Throw an error / let a promise rejection propagate. -/
def throwM (msg : String) : M α := fun _ st => (Except.error msg, st, [])

namespace DepGraphModelSource

/-- The visibility test used by `select` and `center`:
`isNode(element) && !element.hidden` after `index.getById(id)`. -/
def visibleNodeId (st : St) (id : String) : Bool :=
  match getById st id with
  | some (SModelElement.node n) => !n.hidden
  | _ => false

/-- `select(elementIds)` (model-source.ts lines 50-59): on non-empty input,
dispatch a single `SelectAction` over the ids that resolve to a non-hidden
node; on empty input, resolve immediately. -/
def select (elementIds : List String) : M Unit := do
  if 0 < elementIds.length then
    let st ← getSt
    emit (Event.selectAction (elementIds.filter (fun id => visibleNodeId st id)))
  else
    pure ()

/-- `center(elementIds)` (lines 61-76): on non-empty input, dispatch a single
`FitToScreenAction` with padding 20, maxZoom 1, animate true over the ids
that resolve to a non-hidden node; on empty input, resolve immediately. -/
def center (elementIds : List String) : M Unit := do
  if 0 < elementIds.length then
    let st ← getSt
    emit (Event.fitAction (elementIds.filter (fun id => visibleNodeId st id)) 20 1 true)
  else
    pure ()

end DepGraphModelSource

/-- `graphFilter.setFilter(text)`: store the session filter text. -/
def setFilterOp (text : String) : M Unit := do
  emit (Event.setFilterEv text)
  modifySt (fun st => { st with filterText := text })

/-- The state effect of `graphFilter.refresh(graph, index)`: recompute every
element's `hidden` flag from the current filter text, uniformly over
`children` and the index (they hold the same objects). -/
def refreshSt (env : Env) (st : St) : St :=
  { st with
    children := st.children.map (fun e => e.setHidden (env.filterHidden st.filterText e))
    index := st.index.map (fun e => e.setHidden (env.filterHidden st.filterText e)) }

/-- `graphFilter.refresh(this.graphGenerator.graph, this.graphGenerator.index)`:
synchronous visibility recomputation by the external Graph Filter. -/
def refreshOp : M Unit := do
  emit Event.refreshEv
  let env ← getEnv
  modifySt (fun st => refreshSt env st)

/-- `this.updateModel()` / `doSubmitModel`: commit the current model to the
rendering surface. -/
def updateModel : M Unit :=
  emit Event.commit

/-- The id under which the Graph Generator registers the node for the package
coordinates (name, version).  Modelled from the spec: `graph-generator.ts` is
not under `src/`; §4.1 says node identity is derived from name+version, and
the controller's collision check (model-source.ts line 88) looks the id up by
`name` alone, so the derived id is the package name itself. -/
def derivedId (name : String) (version : Option String) : String :=
  let _ := version
  name

namespace DepGraphModelSource

/-- Ids of the currently visible nodes, read from `this.model.children`
(`children.filter(c => isNode(c) && !c.hidden).map(c => c.id)`). -/
def visibleChildIds (st : St) : List String :=
  (st.children.filter (fun c => c.isNode && !c.elemHidden)).map (fun c => c.elemId)

/-- `filter(text)` (lines 78-85): set the filter text, re-run the Graph
Filter, dispatch a deselect-all, capture the visible node ids *before*
committing, commit, then center on the captured set. -/
def filter (text : String) : M Unit := do
  setFilterOp text
  refreshOp
  emit (Event.selectAllAction false)
  let st ← getSt
  let c := visibleChildIds st
  updateModel
  center c

/-- `graphGenerator.generateNode(name, version)`.  Modelled from the spec:
`graph-generator.ts` is not under `src/`; §6 specifies
`generateNode(name, version?) -> Node` and §4.1 that it materializes a node
record, idempotent on id collision.  If the derived id is free, a fresh node
record (visible, unresolved) is appended to the shared graph and index and
returned; if it is taken by a node, that node is returned unchanged; a
collision with a non-node element mirrors the source's unchecked cast — the
fresh record is returned without being added. -/
def generateNode (name : String) (version : Option String) : M DependencyGraphNodeSchema := do
  let st ← getSt
  match getById st (derivedId name version) with
  | some (SModelElement.node n) => pure n
  | some (SModelElement.edge _) =>
      pure { id := derivedId name version, name := name, version := version }
  | none => do
      let node : DependencyGraphNodeSchema :=
        { id := derivedId name version, name := name, version := version }
      modifySt (fun s =>
        { s with
          children := s.children ++ [SModelElement.node node]
          index := s.index ++ [SModelElement.node node] })
      pure node

/-- `createNode(name, version?)` (lines 87-94): record whether the derived id
is free, ask the generator to materialize the node, and only when it was free
commit the model and select the new node. -/
def createNode (name : String) (version : Option String) : M Unit := do
  let st ← getSt
  let isNew := getById st name == none
  let node ← generateNode name version
  if isNew then do
    updateModel
    select [node.id]

end DepGraphModelSource

/-- A pending promise collected by a resolution loop: which node it resolves,
and how it will settle (rejection message or fulfilled child-node list). -/
structure Pending where
  nodeId : String
  outcome : Except String (List DependencyGraphNodeSchema)
  deriving Repr

/-- Add a freshly discovered node to the shared graph and index unless its id
is already taken (the Graph Generator's merge of fetched results). -/
def addNodeSt (n : DependencyGraphNodeSchema) (st : St) : St :=
  if (getById st n.id).isSome then st
  else
    { st with
      children := st.children ++ [SModelElement.node n]
      index := st.index ++ [SModelElement.node n] }

/-- The Graph Generator's state effect when one fetch settles: on fulfilment,
mark the fetched node resolved and merge the discovered children into the
model/index; a rejected fetch leaves the state unchanged. -/
def applySettle (st : St) (p : Pending) : St :=
  match p.outcome with
  | Except.error _ => st
  | Except.ok newNodes =>
      newNodes.foldl (fun s m => addNodeSt m s) (mapElem p.nodeId SModelElement.setResolved st)

/-- The state effect of letting every collected promise settle. -/
def settleEffects (ps : List Pending) (st : St) : St :=
  ps.foldl applySettle st

/-- The first rejection among the settled promises (what `Promise.all`
rejects with), if any. -/
def firstRejection : List Pending → Option String
  | [] => none
  | p :: ps =>
    match p.outcome with
    | Except.error msg => some msg
    | Except.ok _ => firstRejection ps

/-- The fulfilled results, gathered in order (`newNodes.push(...result)` in
the `.then` continuations of `resolveGraph`). -/
def gatherResults (ps : List Pending) : List DependencyGraphNodeSchema :=
  ps.foldl
    (fun acc p =>
      match p.outcome with
      | Except.ok ns => acc ++ ns
      | Except.error _ => acc)
    []

/-- `await Promise.all(promises)`: every pending fetch settles (applying its
generator effect), the fulfilled child lists are gathered in order, and the
aggregate rejects with the first rejection — uncaught, so the rejection
propagates out of the awaiting operation. -/
def awaitAll (ps : List Pending) : M (List DependencyGraphNodeSchema) := do
  modifySt (settleEffects ps)
  match firstRejection ps with
  | some msg => throwM msg
  | none => pure (gatherResults ps)

namespace DepGraphModelSource

/-- The fetch loop of `resolveNodes` (lines 105-116): for each non-hidden
node, invoke `graphGenerator.resolveNode(node)` inside try/catch — a
synchronous throw is recorded on the node's `error` field, otherwise the
pending promise is collected — and push the node's id onto the center list.
Hidden nodes are skipped entirely.  Returns (collected promises, center
ids). -/
def fetchLoop : List DependencyGraphNodeSchema → M (List Pending × List String)
  | [] => pure ([], [])
  | node :: rest => do
    if node.hidden then
      fetchLoop rest
    else do
      let env ← getEnv
      emit (Event.fetch node.id)
      let p ←
        match env.gen node with
        | FetchOutcome.syncThrow msg => do
            modifySt (setErrorSt node.id msg)
            pure (none : Option Pending)
        | FetchOutcome.rejected msg =>
            pure (some { nodeId := node.id, outcome := Except.error msg })
        | FetchOutcome.fulfilled ns =>
            pure (some { nodeId := node.id, outcome := Except.ok ns })
      let (ps, cs) ← fetchLoop rest
      match p with
      | some pend => pure (pend :: ps, node.id :: cs)
      | none => pure (ps, node.id :: cs)

/-- `resolveNodes(nodes)` (lines 96-125): short-circuit to centering when
every node is hidden or resolved; otherwise toggle the load indicator on,
run the fetch loop, await all collected promises, re-run the Graph Filter,
commit, toggle the load indicator off, and center on the non-hidden target
ids. -/
def resolveNodes (nodes : List DependencyGraphNodeSchema) : M Unit := do
  if nodes.all (fun n => n.hidden || n.resolved) then
    center (nodes.map (fun n => n.id))
  else do
    let env ← getEnv
    if env.hasLoadIndicator then emit (Event.loadIndicator true)
    let (promises, c) ← fetchLoop nodes
    let _ ← awaitAll promises
    refreshOp
    updateModel
    if env.hasLoadIndicator then emit (Event.loadIndicator false)
    center c

/-- The per-wave fetch loop of `resolveGraph` (lines 136-144): like the
`resolveNodes` loop but without the hidden check and without a center list;
a synchronous generator throw records the node's `error` and contributes no
promise (so the node yields no new frontier nodes). -/
def waveFetch : List DependencyGraphNodeSchema → M (List Pending)
  | [] => pure []
  | node :: rest => do
    let env ← getEnv
    emit (Event.fetch node.id)
    let p ←
      match env.gen node with
      | FetchOutcome.syncThrow msg => do
          modifySt (setErrorSt node.id msg)
          pure (none : Option Pending)
      | FetchOutcome.rejected msg =>
          pure (some { nodeId := node.id, outcome := Except.error msg })
      | FetchOutcome.fulfilled ns =>
          pure (some { nodeId := node.id, outcome := Except.ok ns })
    let ps ← waveFetch rest
    match p with
    | some pend => pure (pend :: ps)
    | none => pure ps

/-- The `while (nodes.length > 0)` loop of `resolveGraph` (lines 133-147),
embedded with an explicit fuel parameter (the source relies on the Graph
Generator's liveness for termination, spec §4.5).  Returns the number of
executed waves (loop iterations); exhausting the fuel on a non-empty
frontier surfaces as an error, which none of the runs proved below reach. -/
def waveLoop : Nat → List DependencyGraphNodeSchema → M Nat
  | _, [] => pure 0
  | 0, _ :: _ => throwM "fuel exhausted"
  | Nat.succ fuel, nodes => do
    let promises ← waveFetch nodes
    let newNodes ← awaitAll promises
    let w ← waveLoop fuel newNodes
    pure (w + 1)

/-- `resolveGraph()` (lines 127-156): toggle the load indicator on, take the
frontier of unresolved model nodes, run the breadth-first wave loop, re-run
the Graph Filter, capture the visible node ids, commit, toggle the load
indicator off, and center on the captured set.  The returned number of
waves is a ghost observation of the loop. -/
def resolveGraph (fuel : Nat) : M Nat := do
  let env ← getEnv
  if env.hasLoadIndicator then emit (Event.loadIndicator true)
  let st ← getSt
  let nodes := st.children.filterMap (fun c =>
    match c with
    | SModelElement.node n => if n.resolved then none else some n
    | SModelElement.edge _ => none)
  let waves ← waveLoop fuel nodes
  refreshOp
  let st2 ← getSt
  let c := visibleChildIds st2
  updateModel
  if env.hasLoadIndicator then emit (Event.loadIndicator false)
  center c
  pure waves

end DepGraphModelSource

/-- `index.remove(element)`: delete the element's id from the Index. -/
def removeFromIndex (e : SModelElement) (st : St) : St :=
  { st with index := st.index.filter (fun x => x.elemId != e.elemId) }

namespace DepGraphModelSource

/-- `clear()` (lines 158-165): remove every current `Model.children` element
from the Index, empty `children`, reset the filter text, and commit.  The
whole operation is one atomic step of the cooperative scheduler (§5): it
contains no suspension point, so no other operation can observe an
intermediate state. -/
def clear : M Unit := do
  let st0 ← getSt
  modifySt (fun s => st0.children.foldl (fun acc e => removeFromIndex e acc) s)
  modifySt (fun s => { s with children := [] })
  setFilterOp ""
  updateModel

end DepGraphModelSource

/-- One entry of `ComputedBoundsAction.bounds`. -/
structure ElementAndBounds where
  elementId : String
  newBounds : Bounds
  deriving DecidableEq, Repr

/-- One entry of `ComputedBoundsAction.alignments`. -/
structure ElementAndAlignment where
  elementId : String
  newAlignment : Point
  deriving DecidableEq, Repr

/-- The `ComputedBoundsAction` payload handled by the controller. -/
structure ComputedBoundsAction where
  bounds : List ElementAndBounds
  alignments : Option (List ElementAndAlignment) := none
  deriving DecidableEq, Repr

namespace DepGraphModelSource

/-- `handleComputedBounds(action)` (lines 205-228): apply each bounds entry
to the indexed element (silently skipping ids no longer present), likewise
each alignment entry, then run the Layout Engine: on fulfilment submit the
model; on rejection log the error and still submit the model. -/
def handleComputedBounds (action : ComputedBoundsAction) : M Unit := do
  modifySt (fun st =>
    action.bounds.foldl
      (fun s b =>
        if (getById s b.elementId).isSome then mapElem b.elementId (SModelElement.setBounds b.newBounds) s
        else s)
      st)
  match action.alignments with
  | some aligns =>
      modifySt (fun st =>
        aligns.foldl
          (fun s a =>
            if (getById s a.elementId).isSome then mapElem a.elementId (SModelElement.setAlignment a.newAlignment) s
            else s)
          st)
  | none => pure ()
  let env ← getEnv
  modifySt env.layoutEffect
  match env.layoutOutcome with
  | Except.ok _ => updateModel
  | Except.error msg => do
      emit (Event.logError msg)
      updateModel

end DepGraphModelSource

/-! ## Observation helpers and run characterizations

Pure functions describing the outcome of the loops of `resolveNodes`; they
are related to the source-mirroring definitions by the lemmas below. -/

/-- The `error` field of the indexed node with the given id. -/
def nodeErrorOf (st : St) (id : String) : Option String :=
  match getById st id with
  | some (SModelElement.node n) => n.error
  | _ => none

/-- Every node currently in `Model.children` is resolved. -/
def allNodesResolved (st : St) : Bool :=
  st.children.all (fun e =>
    match e with
    | SModelElement.node n => n.resolved
    | SModelElement.edge _ => true)

/-- The promises collected by the `resolveNodes` fetch loop: one per
non-hidden node whose generator invocation does not throw synchronously. -/
def fetchPendings (env : Env) (nodes : List DependencyGraphNodeSchema) : List Pending :=
  (nodes.filter (fun n => !n.hidden)).filterMap (fun n =>
    match env.gen n with
    | FetchOutcome.syncThrow _ => none
    | FetchOutcome.rejected msg => some { nodeId := n.id, outcome := Except.error msg }
    | FetchOutcome.fulfilled ns => some { nodeId := n.id, outcome := Except.ok ns })

/-- The center list built by the `resolveNodes` fetch loop: the ids of the
non-hidden input nodes. -/
def fetchCenter (nodes : List DependencyGraphNodeSchema) : List String :=
  (nodes.filter (fun n => !n.hidden)).map (fun n => n.id)

/-- The generator invocations recorded by the `resolveNodes` fetch loop. -/
def fetchEvents (nodes : List DependencyGraphNodeSchema) : List Event :=
  (nodes.filter (fun n => !n.hidden)).map (fun n => Event.fetch n.id)

/-- One step of the synchronous part of a fetch loop: a non-hidden node whose
generator invocation throws synchronously gets the failure's description
recorded on its `error` field. -/
def fetchSyncStep (env : Env) (s : St) (n : DependencyGraphNodeSchema) : St :=
  if n.hidden then s
  else
    match env.gen n with
    | FetchOutcome.syncThrow msg => setErrorSt n.id msg s
    | _ => s

/-- The state after the synchronous part of the `resolveNodes` fetch loop. -/
def fetchSyncState (env : Env) (nodes : List DependencyGraphNodeSchema) (st : St) : St :=
  nodes.foldl (fetchSyncStep env) st

/-- The state effect of the bounds loop of `handleComputedBounds`: apply each
computed bounds entry to its indexed element, skipping absent ids. -/
def applyBoundsListSt (bs : List ElementAndBounds) (st : St) : St :=
  bs.foldl
    (fun s b =>
      if (getById s b.elementId).isSome then mapElem b.elementId (SModelElement.setBounds b.newBounds) s
      else s)
    st

/-- The state effect of the alignments loop of `handleComputedBounds`. -/
def applyAlignmentsSt (al : Option (List ElementAndAlignment)) (st : St) : St :=
  match al with
  | some aligns =>
      aligns.foldl
        (fun s a =>
          if (getById s a.elementId).isSome then
            mapElem a.elementId (SModelElement.setAlignment a.newAlignment) s
          else s)
        st
  | none => st

/-- The load-indicator toggle events of one resolution batch: present only
when a load indicator is configured. -/
def loadEvents (env : Env) (b : Bool) : List Event :=
  if env.hasLoadIndicator then [Event.loadIndicator b] else []

/-- The trace of one `center(ids)` call performed in state `st`. -/
def centerTrace (st : St) (ids : List String) : List Event :=
  if ids.isEmpty then []
  else [Event.fitAction (ids.filter (fun id => DepGraphModelSource.visibleNodeId st id)) 20 1 true]

/-! ## Concrete fixtures used by the counterexamples and witnesses -/

/-- A trivial environment: every fetch fulfils with no children, the filter
hides nothing. -/
def envTriv : Env :=
  { gen := fun _ => FetchOutcome.fulfilled []
    filterHidden := fun _ _ => false }

/-- The empty state. -/
def stEmpty : St := { children := [], index := [] }

/-- Fixture node `A` (unresolved, visible). -/
def nodeA : DependencyGraphNodeSchema := { id := "A", name := "A" }

/-- Fixture node `B` (unresolved, visible). -/
def nodeB : DependencyGraphNodeSchema := { id := "B", name := "B" }

/-- Fixture node `C` (unresolved, visible). -/
def nodeC : DependencyGraphNodeSchema := { id := "C", name := "C" }

/-- An already-resolved fixture node. -/
def nodeRes : DependencyGraphNodeSchema := { id := "R", name := "R", resolved := true }

/-- Environment realizing the dependency closure A depends on B depends on C,
C with no further dependencies: resolving a node discovers exactly its
dependency, and nothing is hidden. -/
def envABC : Env :=
  { gen := fun n =>
      if n.id == "A" then FetchOutcome.fulfilled [nodeB]
      else if n.id == "B" then FetchOutcome.fulfilled [nodeC]
      else FetchOutcome.fulfilled []
    filterHidden := fun _ _ => false }

/-- Initial state for the A→B→C scenario: only `A`, unresolved. -/
def stA : St := { children := [SModelElement.node nodeA], index := [SModelElement.node nodeA] }

/-- Environment for the failing-batch scenario: `A`'s fetch returns a promise
that rejects with "boom"; every other fetch fulfils with no children. -/
def envReject : Env :=
  { gen := fun n =>
      if n.id == "A" then FetchOutcome.rejected "boom"
      else FetchOutcome.fulfilled []
    filterHidden := fun _ _ => false }

/-- State holding the two batch nodes `A` and `B`. -/
def stAB : St :=
  { children := [SModelElement.node nodeA, SModelElement.node nodeB]
    index := [SModelElement.node nodeA, SModelElement.node nodeB] }

/-- A fixture edge. -/
def edgeE1 : DependencyGraphEdgeSchema := { id := "e1", sourceId := "A", targetId := "B" }

/-- State holding only the fixture edge: any id list made of `"e1"` filters
down to the empty selection. -/
def stEdge : St :=
  { children := [SModelElement.edge edgeE1], index := [SModelElement.edge edgeE1] }

/-- Environment whose Layout Engine rejects with "elk failed". -/
def envLayoutFail : Env :=
  { gen := fun _ => FetchOutcome.fulfilled []
    filterHidden := fun _ _ => false
    layoutOutcome := Except.error "elk failed" }

/-- Environment for the synchronous-failure scenario: invoking the generator
on `A` throws "sync boom" before returning a promise; every other fetch
fulfils with no children. -/
def envSync : Env :=
  { gen := fun n =>
      if n.id == "A" then FetchOutcome.syncThrow "sync boom"
      else FetchOutcome.fulfilled []
    filterHidden := fun _ _ => false }

/-- The node record the Graph Generator materializes for fresh package
coordinates (visible, unresolved, no error). -/
def createdNodeRecord (name : String) (version : Option String) : DependencyGraphNodeSchema :=
  { id := derivedId name version, name := name, version := version }

/-- The state after a fresh `createNode`: the generated node appended to the
shared graph and index. -/
def stAfterCreate (st : St) (name : String) (version : Option String) : St :=
  { st with
    children := st.children ++ [SModelElement.node (createdNodeRecord name version)]
    index := st.index ++ [SModelElement.node (createdNodeRecord name version)] }

deriving instance DecidableEq for Except

/-! ## Run lemmas for the controller monad and the basic operations -/

theorem M.run_bind (x : M α) (f : α → M β) (env : Env) (st : St) :
    (x >>= f) env st =
      match x env st with
      | (Except.ok a, st1, tr1) =>
        ((f a env st1).1, (f a env st1).2.1, tr1 ++ (f a env st1).2.2)
      | (Except.error msg, st1, tr1) => (Except.error msg, st1, tr1) := by
  show M.bindM x f env st = _
  unfold M.bindM
  rcases h : x env st with ⟨r, st1, tr1⟩
  cases r <;> rfl

theorem M.run_pure (a : α) (env : Env) (st : St) :
    (pure a : M α) env st = (Except.ok a, st, []) := rfl

/-- `select` run characterization: the state is untouched and exactly one
`SelectAction` over the visibility-filtered ids is dispatched unless the
input list is empty. -/
theorem select_run (env : Env) (st : St) (ids : List String) :
    DepGraphModelSource.select ids env st =
      (Except.ok (), st,
        if ids.isEmpty then []
        else [Event.selectAction (ids.filter (fun id => DepGraphModelSource.visibleNodeId st id))]) := by
  cases ids <;>
    simp [DepGraphModelSource.select, getSt, emit, M.bindM, M.pureM, Bind.bind, Pure.pure]

/-- `center` run characterization: the state is untouched and exactly one
fit/center action over the visibility-filtered ids is dispatched unless the
input list is empty. -/
theorem center_run (env : Env) (st : St) (ids : List String) :
    DepGraphModelSource.center ids env st =
      (Except.ok (), st,
        if ids.isEmpty then []
        else [Event.fitAction (ids.filter (fun id => DepGraphModelSource.visibleNodeId st id)) 20 1 true]) := by
  cases ids <;>
    simp [DepGraphModelSource.center, getSt, emit, M.bindM, M.pureM, Bind.bind, Pure.pure]

theorem M.bindM_apply (x : M α) (f : α → M β) (env : Env) (st : St) :
    M.bindM x f env st =
      match x env st with
      | (Except.ok a, st1, tr1) =>
        ((f a env st1).1, (f a env st1).2.1, tr1 ++ (f a env st1).2.2)
      | (Except.error msg, st1, tr1) => (Except.error msg, st1, tr1) := by
  unfold M.bindM
  rcases h : x env st with ⟨r, st1, tr1⟩
  cases r <;> rfl

theorem emit_apply (ev : Event) (env : Env) (st : St) :
    emit ev env st = (Except.ok (), st, [ev]) := rfl

theorem getSt_apply (env : Env) (st : St) :
    getSt env st = (Except.ok st, st, []) := rfl

theorem getEnv_apply (env : Env) (st : St) :
    getEnv env st = (Except.ok env, st, []) := rfl

theorem modifySt_apply (f : St → St) (env : Env) (st : St) :
    modifySt f env st = (Except.ok (), f st, []) := rfl

theorem throwM_apply (msg : String) (env : Env) (st : St) :
    (throwM msg : M α) env st = (Except.error msg, st, []) := rfl

theorem pureM_apply (a : α) (env : Env) (st : St) :
    M.pureM a env st = (Except.ok a, st, []) := rfl

/-- Characterization of the `resolveNodes` fetch loop: it returns the
collected promises and the non-hidden ids, records the synchronous failures
on the nodes' `error` fields, and emits one generator invocation per
non-hidden node. -/
theorem fetchLoop_run (env : Env) (nodes : List DependencyGraphNodeSchema) (st : St) :
    DepGraphModelSource.fetchLoop nodes env st =
      (Except.ok (fetchPendings env nodes, fetchCenter nodes),
       fetchSyncState env nodes st, fetchEvents nodes) := by
  induction nodes generalizing st with
  | nil => rfl
  | cons n rest ih =>
    by_cases h : n.hidden
    · simp [DepGraphModelSource.fetchLoop, h, fetchPendings, fetchCenter, fetchEvents,
        fetchSyncState, fetchSyncStep, ih, List.filter_cons]
    · rcases hg : env.gen n with msg | msg | ns <;>
        simp [DepGraphModelSource.fetchLoop, h, hg, fetchPendings, fetchCenter, fetchEvents,
          fetchSyncState, fetchSyncStep, ih, List.filter_cons, getEnv, emit, modifySt,
          M.bindM, M.pureM, Bind.bind, Pure.pure]

/-- Characterization of `await Promise.all`: all settlement effects apply,
then the aggregate either rejects with the first rejection or fulfils with
the gathered results. -/
theorem awaitAll_run (ps : List Pending) (env : Env) (st : St) :
    awaitAll ps env st =
      ((match firstRejection ps with
        | some msg => Except.error msg
        | none => Except.ok (gatherResults ps)),
       settleEffects ps st, []) := by
  cases h : firstRejection ps <;>
    simp [awaitAll, modifySt, throwM, M.bindM, M.pureM, Bind.bind, Pure.pure, h]

/-- Characterization of the short-circuit path of `resolveNodes`: when every
given node is hidden or resolved, the operation is exactly a `center` on the
given ids. -/
theorem resolveNodes_run_idle (env : Env) (st : St) (nodes : List DependencyGraphNodeSchema)
    (hAll : nodes.all (fun n => n.hidden || n.resolved) = true) :
    DepGraphModelSource.resolveNodes nodes env st =
      DepGraphModelSource.center (nodes.map (fun n => n.id)) env st := by
  simp [DepGraphModelSource.resolveNodes, hAll]

/-- Characterization of the busy path of `resolveNodes`: load indicator on,
fetch loop, `Promise.all` (whose first rejection — if any — escapes the
operation, skipping filter, commit, load-indicator-off and center), filter
refresh, commit, load indicator off, and centering on the non-hidden target
ids. -/
theorem resolveNodes_run_busy (env : Env) (st : St) (nodes : List DependencyGraphNodeSchema)
    (hAll : nodes.all (fun n => n.hidden || n.resolved) = false) :
    DepGraphModelSource.resolveNodes nodes env st =
      match firstRejection (fetchPendings env nodes) with
      | some msg =>
          (Except.error msg,
           settleEffects (fetchPendings env nodes) (fetchSyncState env nodes st),
           loadEvents env true ++ fetchEvents nodes)
      | none =>
          (Except.ok (),
           refreshSt env (settleEffects (fetchPendings env nodes) (fetchSyncState env nodes st)),
           loadEvents env true ++ fetchEvents nodes ++ [Event.refreshEv, Event.commit] ++
             loadEvents env false ++
             centerTrace
               (refreshSt env (settleEffects (fetchPendings env nodes) (fetchSyncState env nodes st)))
               (fetchCenter nodes)) := by
  cases hr : firstRejection (fetchPendings env nodes) with
  | some msg =>
    by_cases hli : env.hasLoadIndicator <;>
      simp [DepGraphModelSource.resolveNodes, hAll, hli, loadEvents, Bind.bind, Pure.pure,
        M.bindM_apply, emit_apply, getSt_apply, getEnv_apply, modifySt_apply, throwM_apply,
        pureM_apply, fetchLoop_run, awaitAll_run, hr]
  | none =>
    by_cases hli : env.hasLoadIndicator <;>
      simp [DepGraphModelSource.resolveNodes, hAll, hli, loadEvents, centerTrace, Bind.bind,
        Pure.pure, M.bindM_apply, emit_apply, getSt_apply, getEnv_apply, modifySt_apply,
        throwM_apply, pureM_apply, fetchLoop_run, awaitAll_run, hr, refreshOp, updateModel,
        center_run]

/-! ## Lookup lemmas: `getById` through the state transformers -/

theorem elemId_setHidden (b : Bool) (e : SModelElement) :
    (e.setHidden b).elemId = e.elemId := by
  cases e <;> rfl

theorem elemId_setError (msg : String) (e : SModelElement) :
    (e.setError msg).elemId = e.elemId := by
  cases e <;> rfl

theorem elemId_setResolved (e : SModelElement) :
    e.setResolved.elemId = e.elemId := by
  cases e <;> rfl

theorem find?_map_id_preserving (l : List SModelElement) (g : SModelElement → SModelElement)
    (id : String) (hg : ∀ e, (g e).elemId = e.elemId) :
    (l.map g).find? (fun e => e.elemId == id) = (l.find? (fun e => e.elemId == id)).map g := by
  induction l with
  | nil => rfl
  | cons e rest ih =>
    by_cases h : (e.elemId == id) = true
    · simp [List.find?, hg, h]
    · simp [List.find?, hg, h, ih]

/-- The element found by `getById` carries the looked-up id. -/
theorem getById_elemId {st : St} {id : String} {e : SModelElement}
    (h : getById st id = some e) : e.elemId = id := by
  have := List.find?_some h
  simpa using this

theorem getById_mapElem (st : St) (id2 : String) (f : SModelElement → SModelElement)
    (hf : ∀ e, (f e).elemId = e.elemId) (id : String) :
    getById (mapElem id2 f st) id =
      (getById st id).map (fun e => if e.elemId == id2 then f e else e) := by
  unfold getById mapElem
  exact find?_map_id_preserving _ _ _ (fun e => by by_cases h : e.elemId == id2 <;> simp [h, hf])

theorem getById_mapElem_ne (st : St) (id2 : String) (f : SModelElement → SModelElement)
    (hf : ∀ e, (f e).elemId = e.elemId) (id : String) (hne : id2 ≠ id) :
    getById (mapElem id2 f st) id = getById st id := by
  rw [getById_mapElem st id2 f hf id]
  cases h : getById st id with
  | none => rfl
  | some e =>
    have he := getById_elemId h
    simp [he, Ne.symm hne]

theorem getById_mapElem_eq (st : St) (f : SModelElement → SModelElement)
    (hf : ∀ e, (f e).elemId = e.elemId) (id : String) (e : SModelElement)
    (h : getById st id = some e) :
    getById (mapElem id f st) id = some (f e) := by
  rw [getById_mapElem st id f hf id, h]
  have he := getById_elemId h
  simp [he]

theorem getById_refreshSt (env : Env) (st : St) (id : String) :
    getById (refreshSt env st) id =
      (getById st id).map (fun e => e.setHidden (env.filterHidden st.filterText e)) := by
  unfold getById refreshSt
  exact find?_map_id_preserving _ _ _ (fun e => elemId_setHidden _ e)

theorem getById_addNodeSt_of_some (m : DependencyGraphNodeSchema) (st : St) (id : String)
    (e : SModelElement) (h : getById st id = some e) :
    getById (addNodeSt m st) id = some e := by
  unfold addNodeSt
  by_cases hp : (getById st m.id).isSome
  · simp [hp, h]
  · simp only [hp, if_false, Bool.false_eq_true]
    show (st.index ++ [SModelElement.node m]).find? (fun e => e.elemId == id) = some e
    rw [List.find?_append]
    rw [show st.index.find? (fun e => e.elemId == id) = some e from h]
    rfl

theorem getById_addFold_of_some (ms : List DependencyGraphNodeSchema) (st : St) (id : String)
    (e : SModelElement) (h : getById st id = some e) :
    getById (ms.foldl (fun s m => addNodeSt m s) st) id = some e := by
  induction ms generalizing st with
  | nil => exact h
  | cons m rest ih => exact ih _ (getById_addNodeSt_of_some m st id e h)

theorem getById_applySettle_of_some (p : Pending) (st : St) (id : String)
    (e : SModelElement) (hne : p.nodeId ≠ id) (h : getById st id = some e) :
    getById (applySettle st p) id = some e := by
  unfold applySettle
  cases p.outcome with
  | error msg => exact h
  | ok ns =>
    exact getById_addFold_of_some ns _ id e
      (by rw [getById_mapElem_ne st p.nodeId _ elemId_setResolved id hne]; exact h)

theorem getById_settleEffects_of_some (ps : List Pending) (st : St) (id : String)
    (e : SModelElement) (hne : ∀ p ∈ ps, p.nodeId ≠ id) (h : getById st id = some e) :
    getById (settleEffects ps st) id = some e := by
  induction ps generalizing st with
  | nil => exact h
  | cons p rest ih =>
    exact ih _ (fun q hq => hne q (List.mem_cons_of_mem p hq))
      (getById_applySettle_of_some p st id e (hne p (List.mem_cons_self p rest)) h)

theorem getById_fetchSyncStep_stable (env : Env) (st : St) (m : DependencyGraphNodeSchema)
    (id : String) (hm : m.id ≠ id) :
    getById (fetchSyncStep env st m) id = getById st id := by
  unfold fetchSyncStep
  by_cases hh : m.hidden
  · simp [hh]
  · rcases hg : env.gen m with msg | msg | ns <;> simp only [hh, hg, if_false, Bool.false_eq_true]
    · exact getById_mapElem_ne st m.id _ (elemId_setError msg) id hm

theorem getById_fetchSyncState_stable (env : Env) (nodes : List DependencyGraphNodeSchema)
    (st : St) (id : String) (h : ∀ m ∈ nodes, m.id ≠ id) :
    getById (fetchSyncState env nodes st) id = getById st id := by
  induction nodes generalizing st with
  | nil => rfl
  | cons m rest ih =>
    have hm : m.id ≠ id := h m (List.mem_cons_self m rest)
    have hrest : ∀ q ∈ rest, q.id ≠ id := fun q hq => h q (List.mem_cons_of_mem m hq)
    show getById (fetchSyncState env rest (fetchSyncStep env st m)) id = getById st id
    rw [ih _ hrest]
    exact getById_fetchSyncStep_stable env st m id hm

theorem getById_fetchSyncState_hit (env : Env) (nodes : List DependencyGraphNodeSchema)
    (st : St) (n : DependencyGraphNodeSchema) (msg : String) (e : SModelElement)
    (hmem : n ∈ nodes) (hhid : n.hidden = false) (hgen : env.gen n = FetchOutcome.syncThrow msg)
    (hnodup : (nodes.map (fun m => m.id)).Nodup)
    (h : getById st n.id = some e) :
    getById (fetchSyncState env nodes st) n.id = some (e.setError msg) := by
  induction nodes generalizing st with
  | nil => exact absurd hmem (List.not_mem_nil n)
  | cons m rest ih =>
    have hnodup2 := (List.nodup_cons.mp hnodup).2
    have hnotin := (List.nodup_cons.mp hnodup).1
    show getById (fetchSyncState env rest (fetchSyncStep env st m)) n.id = some (e.setError msg)
    rcases List.mem_cons.mp hmem with heq | htail
    · subst heq
      have hstep : getById (fetchSyncStep env st n) n.id = some (e.setError msg) := by
        unfold fetchSyncStep
        simp only [hhid, hgen, if_false, Bool.false_eq_true]
        exact getById_mapElem_eq st _ (elemId_setError msg) n.id e h
      rw [getById_fetchSyncState_stable env rest _ n.id
        (fun q hq hcontra => hnotin (by show n.id ∈ _; rw [← hcontra]; exact List.mem_map_of_mem _ hq))]
      exact hstep
    · have hmne : m.id ≠ n.id := by
        intro hcontra
        exact hnotin (by show m.id ∈ _; rw [hcontra]; exact List.mem_map_of_mem _ htail)
      exact ih _ htail hnodup2 (by rw [getById_fetchSyncStep_stable env st m n.id hmne]; exact h)

theorem fetchPendings_mem (env : Env) (nodes : List DependencyGraphNodeSchema) (p : Pending)
    (hp : p ∈ fetchPendings env nodes) :
    ∃ m, m ∈ nodes ∧ m.hidden = false ∧ p.nodeId = m.id ∧
      (∀ s, env.gen m ≠ FetchOutcome.syncThrow s) ∧
      ((∃ s, env.gen m = FetchOutcome.rejected s ∧ p.outcome = Except.error s) ∨
       (∃ ns, env.gen m = FetchOutcome.fulfilled ns ∧ p.outcome = Except.ok ns)) := by
  unfold fetchPendings at hp
  rcases List.mem_filterMap.mp hp with ⟨m, hm, hf⟩
  rcases List.mem_filter.mp hm with ⟨hmem, hvis⟩
  rcases hg : env.gen m with msg | msg | ns <;> rw [hg] at hf
  · exact absurd hf (by simp)
  · have hpe := (Option.some.inj hf).symm
    subst hpe
    exact ⟨m, hmem, by simpa using hvis, rfl, by simp [hg], Or.inl ⟨msg, hg, rfl⟩⟩
  · have hpe := (Option.some.inj hf).symm
    subst hpe
    exact ⟨m, hmem, by simpa using hvis, rfl, by simp [hg], Or.inr ⟨ns, hg, rfl⟩⟩

theorem firstRejection_eq_none (ps : List Pending)
    (h : ∀ p ∈ ps, ∀ s, p.outcome ≠ Except.error s) :
    firstRejection ps = none := by
  induction ps with
  | nil => rfl
  | cons p rest ih =>
    unfold firstRejection
    cases ho : p.outcome with
    | error s => exact absurd ho (h p (List.mem_cons_self p rest) s)
    | ok ns => exact ih (fun q hq => h q (List.mem_cons_of_mem p hq))

theorem fetchPendings_no_reject (env : Env) (nodes : List DependencyGraphNodeSchema)
    (h : ∀ m ∈ nodes, ∀ s, env.gen m ≠ FetchOutcome.rejected s) :
    firstRejection (fetchPendings env nodes) = none := by
  apply firstRejection_eq_none
  intro p hp s ho
  rcases fetchPendings_mem env nodes p hp with ⟨m, hmem, _, _, _, hout⟩
  rcases hout with ⟨s2, hg, ho2⟩ | ⟨ns, hg, ho2⟩
  · exact h m hmem s2 hg
  · rw [ho] at ho2
    exact Except.noConfusion ho2

/-! ## Run characterizations of filter, clear, createNode, handleComputedBounds -/

theorem filter_run (env : Env) (st : St) (text : String) :
    DepGraphModelSource.filter text env st =
      (Except.ok (), refreshSt env { st with filterText := text },
       [Event.setFilterEv text, Event.refreshEv, Event.selectAllAction false, Event.commit] ++
         centerTrace (refreshSt env { st with filterText := text })
           (DepGraphModelSource.visibleChildIds (refreshSt env { st with filterText := text }))) := by
  simp [DepGraphModelSource.filter, setFilterOp, refreshOp, updateModel, centerTrace,
    Bind.bind, Pure.pure, M.bindM_apply, emit_apply, getSt_apply, getEnv_apply, modifySt_apply,
    pureM_apply, center_run]

theorem clear_fold_index (children : List SModelElement) (s : St) :
    children.foldl (fun acc e => removeFromIndex e acc) s =
      { s with index := s.index.filter (fun x => children.all (fun e => x.elemId != e.elemId)) } := by
  induction children generalizing s with
  | nil => simp [List.filter_true]
  | cons c rest ih =>
    show rest.foldl (fun acc e => removeFromIndex e acc) (removeFromIndex c s) = _
    rw [ih]
    unfold removeFromIndex
    simp only [List.filter_filter]
    congr 1
    apply List.filter_congr
    intro x _
    simp [List.all_cons, Bool.and_comm]

theorem clear_run (env : Env) (st : St) :
    DepGraphModelSource.clear env st =
      (Except.ok (),
       { children := [],
         index := st.index.filter (fun x => st.children.all (fun e => x.elemId != e.elemId)),
         filterText := "" },
       [Event.setFilterEv "", Event.commit]) := by
  simp [DepGraphModelSource.clear, setFilterOp, updateModel, Bind.bind, Pure.pure,
    M.bindM_apply, emit_apply, getSt_apply, modifySt_apply, pureM_apply, clear_fold_index]

theorem getById_stAfterCreate (st : St) (name : String) (version : Option String)
    (h : getById st (derivedId name version) = none) :
    getById (stAfterCreate st name version) (derivedId name version) =
      some (SModelElement.node (createdNodeRecord name version)) := by
  show (st.index ++ [SModelElement.node (createdNodeRecord name version)]).find?
      (fun e => e.elemId == derivedId name version) = _
  rw [List.find?_append, show st.index.find? (fun e => e.elemId == derivedId name version) = none
    from h]
  simp [createdNodeRecord, SModelElement.elemId]

theorem createNode_run_fresh (env : Env) (st : St) (name : String) (version : Option String)
    (h : getById st (derivedId name version) = none) :
    DepGraphModelSource.createNode name version env st =
      (Except.ok (), stAfterCreate st name version,
       [Event.commit, Event.selectAction [derivedId name version]]) := by
  have h2 : getById st name = none := by simpa [derivedId] using h
  have hvis : DepGraphModelSource.visibleNodeId (stAfterCreate st name version) name = true := by
    unfold DepGraphModelSource.visibleNodeId
    rw [show getById (stAfterCreate st name version) name =
        some (SModelElement.node (createdNodeRecord name version)) from
      getById_stAfterCreate st name version h]
    simp [createdNodeRecord]
  simp [DepGraphModelSource.createNode, DepGraphModelSource.generateNode, h2, derivedId,
    updateModel, Bind.bind, Pure.pure, M.bindM_apply, emit_apply, getSt_apply, modifySt_apply,
    pureM_apply, select_run, stAfterCreate, createdNodeRecord]
  exact hvis

theorem createNode_run_taken (env : Env) (st : St) (name : String) (version : Option String)
    (e : SModelElement) (h : getById st (derivedId name version) = some e) :
    DepGraphModelSource.createNode name version env st = (Except.ok (), st, []) := by
  have h2 : getById st name = some e := by simpa [derivedId] using h
  cases e <;>
    simp [DepGraphModelSource.createNode, DepGraphModelSource.generateNode, h2, derivedId,
      Bind.bind, Pure.pure, M.bindM_apply, emit_apply, getSt_apply, modifySt_apply, pureM_apply]

theorem handleComputedBounds_run (env : Env) (st : St) (action : ComputedBoundsAction) :
    DepGraphModelSource.handleComputedBounds action env st =
      (Except.ok (),
       env.layoutEffect (applyAlignmentsSt action.alignments (applyBoundsListSt action.bounds st)),
       match env.layoutOutcome with
       | Except.ok _ => [Event.commit]
       | Except.error msg => [Event.logError msg, Event.commit]) := by
  cases ha : action.alignments <;> cases ho : env.layoutOutcome <;>
    simp [DepGraphModelSource.handleComputedBounds, ha, ho, updateModel,
      applyAlignmentsSt, applyBoundsListSt, Bind.bind, Pure.pure, M.bindM_apply, emit_apply,
      getSt_apply, getEnv_apply, modifySt_apply, pureM_apply]

/-! ## Filter-text preservation through the resolution state transformers -/

theorem mapElem_filterText (id : String) (f : SModelElement → SModelElement) (st : St) :
    (mapElem id f st).filterText = st.filterText := rfl

theorem addNodeSt_filterText (m : DependencyGraphNodeSchema) (st : St) :
    (addNodeSt m st).filterText = st.filterText := by
  unfold addNodeSt
  split <;> rfl

theorem addFold_filterText (ms : List DependencyGraphNodeSchema) (st : St) :
    (ms.foldl (fun s m => addNodeSt m s) st).filterText = st.filterText := by
  induction ms generalizing st with
  | nil => rfl
  | cons m rest ih => rw [List.foldl_cons, ih, addNodeSt_filterText]

theorem applySettle_filterText (p : Pending) (st : St) :
    (applySettle st p).filterText = st.filterText := by
  unfold applySettle
  cases p.outcome with
  | error msg => rfl
  | ok ns => rw [addFold_filterText, mapElem_filterText]

theorem settleEffects_filterText (ps : List Pending) (st : St) :
    (settleEffects ps st).filterText = st.filterText := by
  induction ps generalizing st with
  | nil => rfl
  | cons p rest ih =>
    show (settleEffects rest (applySettle st p)).filterText = st.filterText
    rw [ih, applySettle_filterText]

theorem fetchSyncStep_filterText (env : Env) (st : St) (n : DependencyGraphNodeSchema) :
    (fetchSyncStep env st n).filterText = st.filterText := by
  unfold fetchSyncStep
  by_cases hh : n.hidden
  · simp [hh]
  · rcases hg : env.gen n with msg | msg | ns <;> simp [hh, hg, setErrorSt, mapElem_filterText]

theorem fetchSyncState_filterText (env : Env) (nodes : List DependencyGraphNodeSchema) (st : St) :
    (fetchSyncState env nodes st).filterText = st.filterText := by
  induction nodes generalizing st with
  | nil => rfl
  | cons m rest ih =>
    show (fetchSyncState env rest (fetchSyncStep env st m)).filterText = st.filterText
    rw [ih, fetchSyncStep_filterText]

/-! ## Claims -/

/-- C1: the spec claims that a batch in which exactly one node's resolution
fetch fails and the siblings succeed completes normally, commits the
siblings' results and marks the failing node's `error`.  The code violates
this for an asynchronously rejecting fetch: with the batch [A, B] where A's
fetch rejects with "boom" and B's succeeds, `resolveNodes` ends with the
rejection escaping past the batch boundary, no model commit is issued, and
A's `error` field stays empty. -/
theorem C1_async_rejection_escapes_batch :
    (DepGraphModelSource.resolveNodes [nodeA, nodeB]) envReject stAB =
      (Except.error "boom",
       { children := [SModelElement.node nodeA,
                      SModelElement.node { nodeB with resolved := true }],
         index := [SModelElement.node nodeA,
                   SModelElement.node { nodeB with resolved := true }],
         filterText := "" },
       [Event.loadIndicator true, Event.fetch "A", Event.fetch "B"]) ∧
    nodeErrorOf ((DepGraphModelSource.resolveNodes [nodeA, nodeB]) envReject stAB).2.1 "A" = none ∧
    Event.commit ∉ ((DepGraphModelSource.resolveNodes [nodeA, nodeB]) envReject stAB).2.2 := by
  refine ⟨rfl, rfl, ?_⟩
  decide

/-- C2 counterexample: on the dependency closure A depends on B depends on C
(C with no further dependencies), starting from the sole unresolved node A,
`resolveGraph` takes 3 waves, not the 2 claimed: wave 1 resolves A and
discovers B, wave 2 resolves B and discovers C, and a third wave is needed to
resolve the still-unresolved C before the frontier empties. -/
theorem C2_two_waves_counterexample :
    ((DepGraphModelSource.resolveGraph 5) envABC stA).1 = Except.ok 3 ∧
    ((DepGraphModelSource.resolveGraph 5) envABC stA).1 ≠ Except.ok 2 := by
  refine ⟨rfl, ?_⟩
  decide

/-- C2 (amended): `resolveGraph` performs strictly sequential breadth-first
waves, and on the A→B→C closure it terminates with every node resolved after
exactly 3 waves — one per frontier level, including the final wave that
resolves the leaf C and discovers nothing.  The run is independent of the
fuel bound once it covers the 3 waves, and the trace shows the sequential
order: the three fetches in wave order, then one filter pass, one commit and
one centering of all nodes. -/
theorem C2_resolveGraph_waves_eq_depth :
    (DepGraphModelSource.resolveGraph 3) envABC stA =
      (Except.ok 3,
       { children := [SModelElement.node { nodeA with resolved := true },
                      SModelElement.node { nodeB with resolved := true },
                      SModelElement.node { nodeC with resolved := true }],
         index := [SModelElement.node { nodeA with resolved := true },
                   SModelElement.node { nodeB with resolved := true },
                   SModelElement.node { nodeC with resolved := true }],
         filterText := "" },
       [Event.loadIndicator true, Event.fetch "A", Event.fetch "B", Event.fetch "C",
        Event.refreshEv, Event.commit, Event.loadIndicator false,
        Event.fitAction ["A", "B", "C"] 20 1 true]) ∧
    allNodesResolved ((DepGraphModelSource.resolveGraph 3) envABC stA).2.1 = true ∧
    (DepGraphModelSource.resolveGraph 37) envABC stA =
      (DepGraphModelSource.resolveGraph 3) envABC stA := by
  exact ⟨rfl, rfl, rfl⟩

/-- C4 counterexample: the spec claims no view-action is dispatched when the
filtered result is empty.  With an index holding only the edge "e1", the call
`select(["e1"])` has an empty filtered result, yet a `SelectAction` carrying
the empty id set is still dispatched. -/
theorem C4_empty_filtered_dispatch_counterexample :
    ["e1"].filter (fun id => DepGraphModelSource.visibleNodeId stEdge id) = [] ∧
    (DepGraphModelSource.select ["e1"]) envTriv stEdge =
      (Except.ok (), stEdge, [Event.selectAction []]) := by
  exact ⟨rfl, rfl⟩

/-- C4 (amended): `select(elementIds)` dispatches at most one selection
view-action, whose id set is exactly the requested ids that resolve via Index
lookup to a non-hidden Node; on empty input no view-action is dispatched and
the call resolves immediately; on non-empty input whose filtered result is
empty, a selection view-action carrying the empty id set is still
dispatched. -/
theorem C4_select_filtering (env : Env) (st : St) (ids : List String) :
    DepGraphModelSource.select ids env st =
      (Except.ok (), st,
       if ids.isEmpty then []
       else [Event.selectAction
         (ids.filter (fun id => DepGraphModelSource.visibleNodeId st id))]) :=
  select_run env st ids

/-- C9: `select` and `center` are pure projections: for every id list they
leave the Model/Index state entirely unchanged, complete normally, and their
traces consist only of the corresponding view-actions. -/
theorem C9_select_center_pure_projection (env : Env) (st : St) (ids : List String) :
    ((DepGraphModelSource.select ids) env st).2.1 = st ∧
    ((DepGraphModelSource.center ids) env st).2.1 = st ∧
    ((DepGraphModelSource.select ids) env st).1 = Except.ok () ∧
    ((DepGraphModelSource.center ids) env st).1 = Except.ok () ∧
    (∀ ev ∈ ((DepGraphModelSource.select ids) env st).2.2, ∃ l, ev = Event.selectAction l) ∧
    (∀ ev ∈ ((DepGraphModelSource.center ids) env st).2.2,
      ∃ l, ev = Event.fitAction l 20 1 true) := by
  refine ⟨?_, ?_, ?_, ?_, ?_, ?_⟩ <;>
    simp only [select_run, center_run] <;>
    by_cases h : ids.isEmpty <;>
    simp [h]

/-- C9 witness: on a concrete input the state is untouched and the single
dispatched event is a selection view-action. -/
theorem C9_select_center_pure_projection_witness :
    ((DepGraphModelSource.select ["A"]) envTriv stAB).2.1 = stAB ∧
    (∃ l, Event.selectAction ["A"] = Event.selectAction l) := by
  refine ⟨(C9_select_center_pure_projection envTriv stAB ["A"]).1, ?_⟩
  exact (C9_select_center_pure_projection envTriv stAB ["A"]).2.2.2.2.1
    (Event.selectAction ["A"]) (by decide)

/-- C5: whenever every node of a non-empty batch is already hidden or
already resolved, `resolveNodes` is exactly a `center` on the given ids: the
state is untouched and the trace is the single fit/center view-action — zero
generator calls, no load-indicator toggling, no filter pass, no commit. -/
theorem C5_resolveNodes_idempotent_short_circuit (env : Env) (st : St)
    (nodes : List DependencyGraphNodeSchema) (h1 : nodes ≠ [])
    (h2 : ∀ n ∈ nodes, n.hidden = true ∨ n.resolved = true) :
    DepGraphModelSource.resolveNodes nodes env st =
      DepGraphModelSource.center (nodes.map (fun n => n.id)) env st ∧
    ((DepGraphModelSource.resolveNodes nodes) env st).2.1 = st ∧
    ((DepGraphModelSource.resolveNodes nodes) env st).2.2 =
      [Event.fitAction
        ((nodes.map (fun n => n.id)).filter (fun id => DepGraphModelSource.visibleNodeId st id))
        20 1 true] := by
  have hAll : nodes.all (fun n => n.hidden || n.resolved) = true := by
    rw [List.all_eq_true]
    intro n hn
    rcases h2 n hn with h | h <;> simp [h]
  have hrun := resolveNodes_run_idle env st nodes hAll
  have hmapne : (nodes.map (fun n => n.id)).isEmpty = false := by
    cases nodes with
    | nil => exact absurd rfl h1
    | cons a l => rfl
  refine ⟨hrun, ?_, ?_⟩ <;> rw [hrun, center_run] <;> simp [hmapne]

/-- C5 witness: a singleton batch holding one already-resolved node is
short-circuited to a pure centering. -/
theorem C5_resolveNodes_idempotent_short_circuit_witness :
    ([nodeRes] ≠ ([] : List DependencyGraphNodeSchema)) ∧
    (DepGraphModelSource.resolveNodes [nodeRes]) envTriv stEmpty =
      DepGraphModelSource.center ["R"] envTriv stEmpty := by
  refine ⟨by decide, ?_⟩
  exact (C5_resolveNodes_idempotent_short_circuit envTriv stEmpty [nodeRes]
    (by decide) (by decide)).1

/-- C3: `createNode(name, version)` commits the model and dispatches a
selection of the new node exactly when no element with the derived id
previously existed in the Index; on an id collision neither a commit nor a
selection happens and the state is unchanged, so two identical calls leave
exactly one node with that id in the Index and only the first call
dispatches. -/
theorem C3_createNode_identity (env : Env) (st : St) (name : String) (version : Option String) :
    (getById st (derivedId name version) = none →
      DepGraphModelSource.createNode name version env st =
        (Except.ok (), stAfterCreate st name version,
         [Event.commit, Event.selectAction [derivedId name version]]) ∧
      (stAfterCreate st name version).index.countP
          (fun e => e.elemId == derivedId name version) = 1 ∧
      DepGraphModelSource.createNode name version env (stAfterCreate st name version) =
        (Except.ok (), stAfterCreate st name version, [])) ∧
    (∀ e, getById st (derivedId name version) = some e →
      DepGraphModelSource.createNode name version env st = (Except.ok (), st, [])) := by
  constructor
  · intro h
    refine ⟨createNode_run_fresh env st name version h, ?_, ?_⟩
    · show (st.index ++ [SModelElement.node (createdNodeRecord name version)]).countP _ = 1
      rw [List.countP_append]
      have h0 : st.index.countP (fun e => e.elemId == derivedId name version) = 0 :=
        List.countP_eq_zero.mpr (List.find?_eq_none.mp h)
      rw [h0]
      simp [createdNodeRecord, SModelElement.elemId, List.countP_cons]
    · exact createNode_run_taken env (stAfterCreate st name version) name version _
        (getById_stAfterCreate st name version h)
  · intro e he
    exact createNode_run_taken env st name version e he

/-- C3 witness: creating "pkg"@1.0.0 in the empty state commits and selects
the new node. -/
theorem C3_createNode_identity_witness :
    getById stEmpty (derivedId "pkg" (some "1.0.0")) = none ∧
    DepGraphModelSource.createNode "pkg" (some "1.0.0") envTriv stEmpty =
      (Except.ok (), stAfterCreate stEmpty "pkg" (some "1.0.0"),
       [Event.commit, Event.selectAction ["pkg"]]) := by
  refine ⟨rfl, ?_⟩
  exact ((C3_createNode_identity envTriv stEmpty "pkg" (some "1.0.0")).1 rfl).1

/-- C7: under the §3 model/index correspondence (every indexed element is one
of the current children), `clear()` ends with an empty Index, empty
`Model.children` and an empty filter text, and issues one model commit; in
the single-threaded cooperative model the whole operation is one atomic
step, so no intermediate state is observable. -/
theorem C7_clear_empties_state (env : Env) (st : St)
    (hInv : ∀ e ∈ st.index, ∃ c ∈ st.children, c.elemId = e.elemId) :
    DepGraphModelSource.clear env st =
      (Except.ok (), { children := [], index := [], filterText := "" },
       [Event.setFilterEv "", Event.commit]) := by
  rw [clear_run]
  have hnil : st.index.filter (fun x => st.children.all (fun e => x.elemId != e.elemId)) = [] := by
    apply List.filter_eq_nil_iff.mpr
    intro x hx hall
    rcases hInv x hx with ⟨c, hc, he⟩
    have hb := List.all_eq_true.mp hall c hc
    rw [he] at hb
    simp at hb
  rw [hnil]

/-- C7 witness: clearing a one-node model empties everything with a single
commit. -/
theorem C7_clear_empties_state_witness :
    (∀ e ∈ stA.index, ∃ c ∈ stA.children, c.elemId = e.elemId) ∧
    DepGraphModelSource.clear envTriv stA =
      (Except.ok (), { children := [], index := [], filterText := "" },
       [Event.setFilterEv "", Event.commit]) := by
  refine ⟨by decide, C7_clear_empties_state envTriv stA (by decide)⟩

/-- C8: `handleComputedBounds` issues exactly one final model commit for
every outcome of the Layout Engine's layout call, completes normally, and on
rejection logs the error before the still-issued commit. -/
theorem C8_layout_always_commits (env : Env) (st : St) (action : ComputedBoundsAction) :
    ((DepGraphModelSource.handleComputedBounds action) env st).2.2.countP
        (fun ev => ev == Event.commit) = 1 ∧
    ((DepGraphModelSource.handleComputedBounds action) env st).1 = Except.ok () ∧
    (∀ msg, env.layoutOutcome = Except.error msg →
      ((DepGraphModelSource.handleComputedBounds action) env st).2.2 =
        [Event.logError msg, Event.commit]) := by
  refine ⟨?_, ?_, ?_⟩
  · simp only [handleComputedBounds_run]
    cases ho : env.layoutOutcome <;>
      simp [ho, List.countP_cons, List.countP_nil, beq_iff_eq]
  · simp [handleComputedBounds_run]
  · intro msg hmsg
    simp [handleComputedBounds_run, hmsg]

/-- C8 witness: with a rejecting Layout Engine the trace is the logged error
followed by the single commit. -/
theorem C8_layout_always_commits_witness :
    envLayoutFail.layoutOutcome = Except.error "elk failed" ∧
    ((DepGraphModelSource.handleComputedBounds { bounds := [] }) envLayoutFail stEmpty).2.2 =
      [Event.logError "elk failed", Event.commit] := by
  refine ⟨rfl, ?_⟩
  exact (C8_layout_always_commits envLayoutFail stEmpty { bounds := [] }).2.2 "elk failed" rfl

/-- C6: `filter(text)` runs, in order: set the session filter text, re-run
the Graph Filter over the full model (recomputing every element's `hidden`),
dispatch a deselect-all, capture the visible-node ids from the refreshed but
not yet committed state, commit, and finally center on exactly that captured
id set.  The hypothesis is the §3 model/index correspondence on the starting
state. -/
theorem C6_filter_pipeline_order (env : Env) (st : St) (text : String)
    (hInv : ∀ e ∈ st.children, getById st e.elemId = some e) :
    DepGraphModelSource.filter text env st =
      (Except.ok (), refreshSt env { st with filterText := text },
       [Event.setFilterEv text, Event.refreshEv, Event.selectAllAction false, Event.commit] ++
         (if (DepGraphModelSource.visibleChildIds
                (refreshSt env { st with filterText := text })).isEmpty
          then []
          else
            [Event.fitAction
              (DepGraphModelSource.visibleChildIds (refreshSt env { st with filterText := text }))
              20 1 true])) := by
  rw [filter_run]
  have hall : ∀ id ∈ DepGraphModelSource.visibleChildIds
      (refreshSt env { st with filterText := text }),
      DepGraphModelSource.visibleNodeId (refreshSt env { st with filterText := text }) id = true := by
    intro id hid
    unfold DepGraphModelSource.visibleChildIds at hid
    rcases List.mem_map.mp hid with ⟨e, he, heq⟩
    rcases List.mem_filter.mp he with ⟨hec, hvis⟩
    have hch : (refreshSt env { st with filterText := text }).children =
        st.children.map (fun e0 => e0.setHidden (env.filterHidden text e0)) := rfl
    rw [hch] at hec
    rcases List.mem_map.mp hec with ⟨e0, he0, hge⟩
    have hid0 : e.elemId = e0.elemId := by
      rw [← hge]
      exact elemId_setHidden _ e0
    have hlook : getById (refreshSt env { st with filterText := text }) e.elemId = some e := by
      rw [getById_refreshSt env { st with filterText := text } e.elemId, hid0]
      have hbase : getById { st with filterText := text } e0.elemId = some e0 := hInv e0 he0
      rw [hbase]
      show some (e0.setHidden (env.filterHidden text e0)) = some e
      rw [hge]
    rw [← heq]
    unfold DepGraphModelSource.visibleNodeId
    rw [hlook]
    cases e with
    | node nn => simpa [SModelElement.isNode, SModelElement.elemHidden] using hvis
    | edge ee => simp [SModelElement.isNode] at hvis
  unfold centerTrace
  rw [List.filter_eq_self.mpr hall]

/-- C6 witness: filtering the one-node model with the hide-nothing filter
keeps the node visible and centers on it after the commit. -/
theorem C6_filter_pipeline_order_witness :
    (∀ e ∈ stA.children, getById stA e.elemId = some e) ∧
    DepGraphModelSource.filter "npm" envTriv stA =
      (Except.ok (), refreshSt envTriv { stA with filterText := "npm" },
       [Event.setFilterEv "npm", Event.refreshEv, Event.selectAllAction false, Event.commit,
        Event.fitAction ["A"] 20 1 true]) := by
  refine ⟨by decide, ?_⟩
  have h := C6_filter_pipeline_order envTriv stA "npm" (by decide)
  simpa using h

/-- C10: in `resolveNodes`, a non-hidden (unresolved) node whose generator
invocation throws synchronously is isolated: the batch completes normally,
the failure's description lands on that node's `error` field, every
non-hidden sibling is still fetched, the batch still commits, and the
concluding center view-action names the errored node.  Hypotheses: the other
batch members' fetches do not reject asynchronously (otherwise the batch
aborts, claim C1), the batch ids are pairwise distinct, the node is the
indexed element for its id, and the filter pass keeps the errored node
visible. -/
theorem C10_sync_failure_isolated (env : Env) (st : St)
    (nodes : List DependencyGraphNodeSchema) (n : DependencyGraphNodeSchema) (msg : String)
    (hmem : n ∈ nodes) (hhid : n.hidden = false) (hres : n.resolved = false)
    (hgen : env.gen n = FetchOutcome.syncThrow msg)
    (hnorej : ∀ m ∈ nodes, ∀ s, env.gen m ≠ FetchOutcome.rejected s)
    (hnodup : (nodes.map (fun m => m.id)).Nodup)
    (hidx : getById st n.id = some (SModelElement.node n))
    (hkeep : env.filterHidden st.filterText
      (SModelElement.node { n with error := some msg }) = false) :
    ((DepGraphModelSource.resolveNodes nodes) env st).1 = Except.ok () ∧
    nodeErrorOf ((DepGraphModelSource.resolveNodes nodes) env st).2.1 n.id = some msg ∧
    (∀ m ∈ nodes, m.hidden = false →
      Event.fetch m.id ∈ ((DepGraphModelSource.resolveNodes nodes) env st).2.2) ∧
    Event.commit ∈ ((DepGraphModelSource.resolveNodes nodes) env st).2.2 ∧
    (∃ ids, ((DepGraphModelSource.resolveNodes nodes) env st).2.2.getLast? =
        some (Event.fitAction ids 20 1 true) ∧ n.id ∈ ids) := by
  have hAll : nodes.all (fun n => n.hidden || n.resolved) = false := by
    cases hb : nodes.all (fun n => n.hidden || n.resolved) with
    | false => rfl
    | true =>
      have hcontra := List.all_eq_true.mp hb n hmem
      rw [hhid, hres] at hcontra
      simp at hcontra
  have hrej : firstRejection (fetchPendings env nodes) = none :=
    fetchPendings_no_reject env nodes hnorej
  have hrun := resolveNodes_run_busy env st nodes hAll
  rw [hrej] at hrun
  have h1 : getById (fetchSyncState env nodes st) n.id =
      some ((SModelElement.node n).setError msg) :=
    getById_fetchSyncState_hit env nodes st n msg (SModelElement.node n)
      hmem hhid hgen hnodup hidx
  have hne : ∀ p ∈ fetchPendings env nodes, p.nodeId ≠ n.id := by
    intro p hp hcontra
    rcases fetchPendings_mem env nodes p hp with ⟨m, hm, _, hpid, hnsync, _⟩
    have hmn : m = n :=
      List.inj_on_of_nodup_map hnodup hm hmem (by show m.id = n.id; rw [← hpid, hcontra])
    exact hnsync msg (by rw [hmn]; exact hgen)
  have h2 : getById
      (settleEffects (fetchPendings env nodes) (fetchSyncState env nodes st)) n.id =
      some ((SModelElement.node n).setError msg) :=
    getById_settleEffects_of_some _ _ n.id _ hne h1
  have hft : (settleEffects (fetchPendings env nodes)
      (fetchSyncState env nodes st)).filterText = st.filterText := by
    rw [settleEffects_filterText, fetchSyncState_filterText]
  have hrec : ({ n with error := some msg, hidden := false } : DependencyGraphNodeSchema) =
      { n with error := some msg } := by
    cases n
    simp_all
  have h3 : getById (refreshSt env
      (settleEffects (fetchPendings env nodes) (fetchSyncState env nodes st))) n.id =
      some (SModelElement.node { n with error := some msg }) := by
    rw [getById_refreshSt, h2, hft]
    show some ((SModelElement.node { n with error := some msg }).setHidden
      (env.filterHidden st.filterText (SModelElement.node { n with error := some msg }))) = _
    rw [hkeep]
    show some (SModelElement.node { n with error := some msg, hidden := false }) = _
    rw [hrec]
  have hcid : n.id ∈ fetchCenter nodes := by
    unfold fetchCenter
    exact List.mem_map.mpr ⟨n, List.mem_filter.mpr ⟨hmem, by rw [hhid]; rfl⟩, rfl⟩
  have hvisn : DepGraphModelSource.visibleNodeId (refreshSt env
      (settleEffects (fetchPendings env nodes) (fetchSyncState env nodes st))) n.id = true := by
    unfold DepGraphModelSource.visibleNodeId
    rw [h3]
    show (!n.hidden) = true
    rw [hhid]
    rfl
  have hctne : (fetchCenter nodes).isEmpty = false := by
    cases hc : fetchCenter nodes with
    | nil => exact absurd (hc ▸ hcid) (List.not_mem_nil n.id)
    | cons a l => rfl
  have hct : centerTrace (refreshSt env
      (settleEffects (fetchPendings env nodes) (fetchSyncState env nodes st)))
      (fetchCenter nodes) =
      [Event.fitAction ((fetchCenter nodes).filter (fun id =>
        DepGraphModelSource.visibleNodeId (refreshSt env
          (settleEffects (fetchPendings env nodes) (fetchSyncState env nodes st))) id))
        20 1 true] := by
    unfold centerTrace
    rw [hctne]
    rfl
  refine ⟨?_, ?_, ?_, ?_, ?_⟩
  · rw [hrun]
  · rw [hrun]
    show nodeErrorOf (refreshSt env
      (settleEffects (fetchPendings env nodes) (fetchSyncState env nodes st))) n.id = some msg
    unfold nodeErrorOf
    rw [h3]
  · intro m hm hmh
    rw [hrun]
    have hf : Event.fetch m.id ∈ fetchEvents nodes := by
      unfold fetchEvents
      exact List.mem_map.mpr ⟨m, List.mem_filter.mpr ⟨hm, by rw [hmh]; rfl⟩, rfl⟩
    show Event.fetch m.id ∈ _ ++ _ ++ _ ++ _ ++ _
    simp only [List.mem_append]
    exact Or.inl (Or.inl (Or.inl (Or.inr hf)))
  · rw [hrun]
    show Event.commit ∈ _ ++ _ ++ _ ++ _ ++ _
    simp only [List.mem_append]
    exact Or.inl (Or.inl (Or.inr (by simp)))
  · refine ⟨(fetchCenter nodes).filter (fun id =>
      DepGraphModelSource.visibleNodeId (refreshSt env
        (settleEffects (fetchPendings env nodes) (fetchSyncState env nodes st))) id), ?_, ?_⟩
    · rw [hrun]
      show (_ ++ _ ++ _ ++ _ ++ centerTrace _ _).getLast? = _
      rw [hct, List.getLast?_append_of_ne_nil _ (by simp)]
      rfl
    · exact List.mem_filter.mpr ⟨hcid, hvisn⟩

/-- C10 witness: in the batch [A, B] where invoking the generator on A throws
"sync boom" synchronously and B's fetch succeeds, A ends with
`error = "sync boom"` and the concluding center view-action names A. -/
theorem C10_sync_failure_isolated_witness :
    nodeErrorOf ((DepGraphModelSource.resolveNodes [nodeA, nodeB]) envSync stAB).2.1 "A" =
      some "sync boom" ∧
    (∃ ids, ((DepGraphModelSource.resolveNodes [nodeA, nodeB]) envSync stAB).2.2.getLast? =
        some (Event.fitAction ids 20 1 true) ∧ "A" ∈ ids) := by
  have h := C10_sync_failure_isolated envSync stAB [nodeA, nodeB] nodeA "sync boom"
    (by decide) rfl rfl rfl
    (by intro m hm s; fin_cases hm <;> simp [envSync, nodeA, nodeB])
    (by decide) rfl rfl
  exact ⟨h.2.1, h.2.2.2.2⟩
